import Mathlib

/-!
Verification of the agent-harness run state machine and step-orchestration
loop (src/agent/loop.ts, src/agent/state.ts, src/agent/utils.ts).

The TypeScript source is shallowly embedded: the mutable `AgentState` is
threaded explicitly, the wall clock (`nowUtil`) is a `Nat` tick counter
threaded alongside the state (each `now()` call consumes one tick), and the
external capabilities (LLM client, tool executor, context preparator,
observers) are modelled as oracle functions supplied as parameters.  A
capability that throws is modelled by an explicit error constructor; the
thrown value is represented by its error-message string (`toErrorMessage`).
-/

/-- Message roles (src/llm/types.ts). -/
inductive Role
  | system
  | user
  | assistant
  | tool
deriving DecidableEq, Repr

/-- Render a role the way the template literal in the source interpolates it. -/
def Role.toName : Role → String
  | .system => "system"
  | .user => "user"
  | .assistant => "assistant"
  | .tool => "tool"

/-- One tool call requested by the model (LLMToolCall in src/llm/types.ts).
`arguments` is the raw, unparsed JSON string; the empty string models a
falsy/absent payload. -/
structure LLMToolCall where
  id : String
  name : String
  arguments : String
deriving DecidableEq, Repr

/-- The argument payload of a translated tool invocation.  `JSON.parse` is an
external builtin, so the parsed value is kept opaque: `json s` records a
successful parse of the source text `s`, `raw s` is the sentinel object
`\x7b _raw: s \x7d` substituted when parsing fails, and `emptyObj` is the
empty object used when `tc.arguments` is falsy. -/
inductive ToolArgs
  | emptyObj
  | json (s : String)
  | raw (s : String)
deriving DecidableEq, Repr

/-- A message in the run history (LLMMessage in src/llm/types.ts).
`toolCalls` is `none` when the field is absent (the loop applies `?? []`). -/
structure LLMMessage where
  role : Role
  content : String
  toolCalls : Option (List LLMToolCall) := none
  toolCallId : Option String := none
deriving DecidableEq, Repr

/-- LLM-facing description of one tool (ToolDefinition in src/tools/types.ts);
the parameter schema is opaque to the core and omitted. -/
structure ToolDefinition where
  name : String
  description : Option String := none
deriving DecidableEq, Repr

/-- The canonical representation of one requested action (ToolInvocation in
src/tools/types.ts). -/
structure ToolInvocation where
  callId : String
  toolName : String
  args : ToolArgs
deriving DecidableEq, Repr

/-- Result of one tool execution (ToolResult in src/tools/types.ts).  `data`
and `error` hold the already-serialized payload. -/
structure ToolResult where
  callId : String
  toolName : String
  ok : Bool
  data : Option String := none
  error : Option String := none
  startedAt : Nat := 0
  finishedAt : Nat := 0
  durationMs : Int := 0
deriving DecidableEq, Repr

/-- Why the agent loop stopped (TerminationReason in src/agent/state.ts). -/
inductive TerminationReason
  | maxStepsReached
  | toolError
  | modelError
  | userStopped
  | completed
deriving DecidableEq, Repr

/-- High-level status of an agent run (AgentRunStatus in src/agent/state.ts). -/
inductive AgentRunStatus
  | idle
  | running
  | completed
  | failed
  | terminated
deriving DecidableEq, Repr

/-- Configuration of a single run (AgentConfig in src/agent/state.ts).
`maxSteps` and `maxToolCalls` are JS numbers used in integer positions;
`metadata` is opaque and omitted. -/
structure AgentConfig where
  maxSteps : Int
  maxToolCalls : Option Int := none
  modelCallTimeoutMs : Option Nat := none
  toolCallTimeoutMs : Option Nat := none
  allowNoToolAnswer : Option Bool := none
deriving DecidableEq, Repr

/-- The task of a run (AgentTask in src/agent/state.ts). -/
structure AgentTask where
  id : String
  description : String
  input : Option String := none
deriving DecidableEq, Repr

/-- Payload of one recorded step; the four variants of the AgentStep union in
src/agent/state.ts. -/
inductive StepBody
  | modelCall (inputMessages : List LLMMessage) (outputMessage : Option LLMMessage)
      (error : Option String)
  | toolInvocation (invocations : List ToolInvocation)
  | toolResult (results : List ToolResult)
  | termination (reason : TerminationReason) (details : String)
deriving DecidableEq, Repr

/-- One recorded step (BaseAgentStep fields plus the variant payload). -/
structure AgentStep where
  id : String
  index : Nat
  startedAt : Nat
  finishedAt : Option Nat := none
  body : StepBody
deriving DecidableEq, Repr

/-- Run State (AgentState in src/agent/state.ts). -/
structure AgentState where
  runId : String
  task : AgentTask
  config : AgentConfig
  status : AgentRunStatus
  terminationReason : Option TerminationReason := none
  error : Option String := none
  messages : List LLMMessage
  steps : List AgentStep
  totalToolCalls : Nat
  finalAnswer : Option LLMMessage := none
  availableTools : List String
  createdAt : Nat
  updatedAt : Nat
deriving DecidableEq, Repr

/-- Result view handed back to the caller (AgentRunResult in src/agent/state.ts). -/
structure AgentRunResult where
  state : AgentState
  runId : String
  status : AgentRunStatus
  terminationReason : Option TerminationReason
  finalAnswer : Option LLMMessage
  error : Option String
  steps : List AgentStep
  totalToolCalls : Nat
  createdAt : Nat
  updatedAt : Nat
deriving DecidableEq, Repr

/-- getNextStepMeta (src/agent/state.ts): next step id and index from the
current step count. -/
def getNextStepMeta (state : AgentState) : String × Nat :=
  ("step-" ++ toString state.steps.length, state.steps.length)

/-- createInitialState (src/agent/state.ts).  `runId` comes from the external
`generateRunId()` (time + randomness) and is passed in; the single `nowUtil()`
call stamps both `createdAt` and `updatedAt`. -/
def createInitialState (runId : String) (clock : Nat) (task : AgentTask)
    (config : AgentConfig) (system user : LLMMessage)
    (toolDefinitions : List ToolDefinition) : AgentState × Nat :=
  ({ runId := runId
     task := task
     config := config
     status := .idle
     messages := [system, user]
     steps := []
     totalToolCalls := 0
     availableTools := toolDefinitions.map (fun t => t.name)
     createdAt := clock
     updatedAt := clock }, clock + 1)

/-- stateToRunResult (src/agent/state.ts). -/
def stateToRunResult (state : AgentState) : AgentRunResult :=
  { state := state
    runId := state.runId
    status := state.status
    terminationReason := state.terminationReason
    finalAnswer := state.finalAnswer
    error := state.error
    steps := state.steps
    totalToolCalls := state.totalToolCalls
    createdAt := state.createdAt
    updatedAt := state.updatedAt }

/-- Serialized content of one tool-result feedback message.  Stands in for
the external `JSON.stringify(result.data ?? null)` on success and
`JSON.stringify(\x7b error \x7d, null, 2)` on failure; the two shapes stay
distinguishable. -/
def toolResultContent (r : ToolResult) : String :=
  if r.ok then "data:" ++ r.data.getD "null" else "error:" ++ r.error.getD "null"

/-- appendToolResultMessages (src/agent/state.ts): append one `tool` message
per result, preserving order, correlated by `callId`. -/
def appendToolResultMessages (state : AgentState) (toolResults : List ToolResult) :
    AgentState :=
  { state with
      messages := state.messages ++ toolResults.map (fun r =>
        { role := .tool
          content := toolResultContent r
          toolCalls := none
          toolCallId := some r.callId }) }

/-- toolCallsToInvocations (src/agent/utils.ts).  `parseOk` is the oracle for
whether `JSON.parse` succeeds on a payload; JS truthiness makes the empty
string behave as an absent payload, and an empty `tc.id` falls back to the
synthesized `toolcall-stepIndex-idx` id. -/
def toolCallsToInvocations (parseOk : String → Bool) (toolCalls : List LLMToolCall)
    (stepIndex : Nat) : List ToolInvocation :=
  toolCalls.enum.map (fun p =>
    let idx := p.1
    let tc := p.2
    let parsedArgs : ToolArgs :=
      if tc.arguments ≠ "" then
        (if parseOk tc.arguments then .json tc.arguments else .raw tc.arguments)
      else .emptyObj
    { callId := if tc.id ≠ "" then tc.id
        else "toolcall-" ++ toString stepIndex ++ "-" ++ toString idx
      toolName := tc.name
      args := parsedArgs })

/-- statusForTerminationReason (src/agent/loop.ts). -/
def statusForTerminationReason (reason : TerminationReason) : AgentRunStatus :=
  if reason = .modelError then .failed
  else if reason = .completed then .completed
  else .terminated

/-- pushStep (closure in runAgentLoop, src/agent/loop.ts): append the step and
refresh `updatedAt` from `now()`. -/
def pushStep (state : AgentState) (step : AgentStep) (clock : Nat) :
    AgentState × Nat :=
  ({ state with steps := state.steps ++ [step], updatedAt := clock }, clock + 1)

/-- terminateRun (src/agent/loop.ts): create a termination step, push it,
update status, set the termination reason, and set `state.error` only when an
error option is supplied. -/
def terminateRun (state : AgentState) (reason : TerminationReason)
    (details : String) (errorOpt : Option String) (clock : Nat) :
    AgentState × Nat :=
  let meta := getNextStepMeta state
  let step : AgentStep :=
    { id := meta.1
      index := meta.2
      startedAt := clock
      finishedAt := some (clock + 1)
      body := .termination reason details }
  let pushed := pushStep state step (clock + 2)
  ({ pushed.1 with
      status := statusForTerminationReason reason
      terminationReason := some reason
      error := match errorOpt with
        | some e => some e
        | none => pushed.1.error }, pushed.2)

/-- One incremental notification from the streaming model call (StreamChunk in
src/llm/types.ts). -/
structure StreamChunk where
  contentDelta : Option String := none
  reasoningDelta : Option String := none
  done : Bool := false
  message : Option LLMMessage := none
deriving DecidableEq, Repr

/-- Behavior of one blocking `llm.chat` call: the capability either raises (the
string is what `toErrorMessage` extracts from the thrown value) or returns a
response whose `message` field is the given message. -/
inductive ChatOutcome
  | raise (msg : String)
  | reply (message : LLMMessage)
deriving DecidableEq, Repr

/-- Behavior of one `llm.chatStream` call: either the stream raises or it
yields the given chunk sequence. -/
inductive StreamOutcome
  | raise (msg : String)
  | chunks (cs : List StreamChunk)
deriving DecidableEq, Repr

/-- The model-calling capability (LLMClient in src/llm/types.ts), as an oracle
indexed by the number of prior model calls and the message history sent.
`chatStream := none` models a client without a streaming method; in
`runAgentLoop` the `onStreamChunk` callback is always supplied, so streaming
is used exactly when `chatStream` exists. -/
structure LLMClient where
  chat : Nat → List LLMMessage → ChatOutcome
  chatStream : Option (Nat → List LLMMessage → StreamOutcome)

/-- The `for await` scan in executeModelCall: forward every chunk to the
observers (which never mutate Run State) and stop at the first chunk with
`done = true` and a non-null `message`, returning that message. -/
def firstFinalMessage : List StreamChunk → Option LLMMessage
  | [] => none
  | c :: rest =>
      if c.done = true ∧ c.message.isSome then c.message else firstFinalMessage rest

/-- Error text for a non-assistant reply, as interpolated in the source. -/
def roleErrorText (r : Role) : String :=
  "Expected assistant message, got role \"" ++ r.toName ++ "\""

/-- Outcome of executeModelCall threaded back to the loop: the updated state
and clock plus the `\x7b assistantMessage?, error? \x7d` result object. -/
structure ModelCallOut where
  state : AgentState
  clock : Nat
  assistantMessage : Option LLMMessage
  error : Option String

/-- Failure path shared by the catch handler, the missing-final-message check
and the role check in executeModelCall: record the error on the step, stamp
`finishedAt`, and push the step. -/
def recordModelCallFailure (state : AgentState) (id : String) (index startedAt : Nat)
    (inputMessages : List LLMMessage) (e : String) (clock : Nat) :
    AgentState × Nat :=
  let step : AgentStep :=
    { id := id
      index := index
      startedAt := startedAt
      finishedAt := some clock
      body := .modelCall inputMessages none (some e) }
  pushStep state step (clock + 1)

/-- commitModelCallSuccess (src/agent/loop.ts): record the output message on
the step, append it to the history, stamp `finishedAt`, and push the step. -/
def commitModelCallSuccess (state : AgentState) (message : LLMMessage)
    (id : String) (index startedAt : Nat) (inputMessages : List LLMMessage)
    (clock : Nat) : AgentState × Nat :=
  let state' := { state with messages := state.messages ++ [message] }
  let step : AgentStep :=
    { id := id
      index := index
      startedAt := startedAt
      finishedAt := some clock
      body := .modelCall inputMessages (some message) none }
  pushStep state' step (clock + 1)

/-- executeModelCall (src/agent/loop.ts): execute one model call, record the
step, and return the assistant message or error.  `i` is the number of prior
model calls (the oracle index). -/
def executeModelCall (state : AgentState) (llm : LLMClient) (i : Nat)
    (clock : Nat) : ModelCallOut :=
  let meta := getNextStepMeta state
  let startedAt := clock
  let c0 := clock + 1
  let inputMessages := state.messages
  match llm.chatStream with
  | some streamFn =>
    match streamFn i state.messages with
    | .raise e =>
      let r := recordModelCallFailure state meta.1 meta.2 startedAt inputMessages e c0
      { state := r.1, clock := r.2, assistantMessage := none, error := some e }
    | .chunks cs =>
      match firstFinalMessage cs with
      | none =>
        let e := "Stream ended without a final message"
        let r := recordModelCallFailure state meta.1 meta.2 startedAt inputMessages e c0
        { state := r.1, clock := r.2, assistantMessage := none, error := some e }
      | some m =>
        if m.role = .assistant then
          let r := commitModelCallSuccess state m meta.1 meta.2 startedAt inputMessages c0
          { state := r.1, clock := r.2, assistantMessage := some m, error := none }
        else
          let e := roleErrorText m.role
          let r := recordModelCallFailure state meta.1 meta.2 startedAt inputMessages e c0
          { state := r.1, clock := r.2, assistantMessage := none, error := some e }
  | none =>
    match llm.chat i state.messages with
    | .raise e =>
      let r := recordModelCallFailure state meta.1 meta.2 startedAt inputMessages e c0
      { state := r.1, clock := r.2, assistantMessage := none, error := some e }
    | .reply m =>
      if m.role = .assistant then
        let r := commitModelCallSuccess state m meta.1 meta.2 startedAt inputMessages c0
        { state := r.1, clock := r.2, assistantMessage := some m, error := none }
      else
        let e := roleErrorText m.role
        let r := recordModelCallFailure state meta.1 meta.2 startedAt inputMessages e c0
        { state := r.1, clock := r.2, assistantMessage := none, error := some e }

/-- Classification of what one model call yields, independent of the state
bookkeeping: the committed assistant message, or the error string recorded on
the step.  This mirrors the branch structure of executeModelCall and is proved
to characterize it (executeModelCall_verdict). -/
def modelCallVerdict (llm : LLMClient) (i : Nat) (msgs : List LLMMessage) :
    Except String LLMMessage :=
  match llm.chatStream with
  | some streamFn =>
    match streamFn i msgs with
    | .raise e => .error e
    | .chunks cs =>
      match firstFinalMessage cs with
      | none => .error "Stream ended without a final message"
      | some m =>
        if m.role = .assistant then .ok m else .error (roleErrorText m.role)
  | none =>
    match llm.chat i msgs with
    | .raise e => .error e
    | .reply m =>
      if m.role = .assistant then .ok m else .error (roleErrorText m.role)

/-- Behavior of one `toolExecutor.execute` call: the capability either raises
or returns a result list.  The oracle is indexed by the number of prior
dispatch rounds. -/
inductive ExecOutcome
  | raise (msg : String)
  | ok (results : List ToolResult)

/-- The collaborators and constants the loop body reads (destructured from
RunAgentLoopParams in the source). -/
structure LoopEnv where
  config : AgentConfig
  model : String
  llm : LLMClient
  toolDefinitions : List ToolDefinition
  toolExec : Nat → List ToolInvocation → ExecOutcome
  parseOk : String → Bool

/-- The text interpolated for `maxToolCalls` in the budget-exceeded detail
message (`Infinity` when the cap is absent). -/
def maxToolCallsText (config : AgentConfig) : String :=
  match config.maxToolCalls with
  | none => "Infinity"
  | some m => toString m

/-- The budget check `projectedTotal > (config.maxToolCalls ?? Infinity)`. -/
def budgetExceeded (config : AgentConfig) (projectedTotal : Nat) : Bool :=
  match config.maxToolCalls with
  | none => false
  | some m => (projectedTotal : Int) > m

/-- Result of one iteration of the `for` loop: continue to the next iteration,
break out of the loop, or propagate an exception to the outer catch. -/
inductive BodyOut
  | next (st : AgentState) (clock : Nat)
  | stop (st : AgentState) (clock : Nat)
  | thrown (st : AgentState) (clock : Nat) (msg : String)

/-- One iteration of the loop body of runAgentLoop (src/agent/loop.ts),
iteration counter `i`.  The only operation inside the body whose exception is
not already converted into a step-local error is `toolExecutor.execute`. -/
def loopBody (env : LoopEnv) (i : Nat) (st : AgentState) (clock : Nat) : BodyOut :=
  let stepIndex := st.steps.length
  match executeModelCall st env.llm i clock with
  | ⟨st₀, c₀, none, errOpt⟩ =>
    let r := terminateRun st₀ .modelError
      "Model call failed or returned non-assistant message." errOpt c₀
    .stop r.1 r.2
  | ⟨st₀, c₀, some assistantMessage, _⟩ =>
    let toolCalls := assistantMessage.toolCalls.getD []
    if toolCalls.isEmpty then
      let st₁ := { st₀ with finalAnswer := some assistantMessage }
      let r := terminateRun st₁ .completed
        "Assistant returned a final answer without tool calls." none c₀
      .stop r.1 r.2
    else
      let projectedTotal := st₀.totalToolCalls + toolCalls.length
      if budgetExceeded env.config projectedTotal then
        let r := terminateRun st₀ .maxStepsReached
          ("Max tool calls exceeded: " ++ toString projectedTotal ++ " > " ++
            maxToolCallsText env.config) none c₀
        .stop r.1 r.2
      else
        let invocations := toolCallsToInvocations env.parseOk toolCalls stepIndex
        let invMeta := getNextStepMeta st₀
        let invStep : AgentStep :=
          { id := invMeta.1
            index := invMeta.2
            startedAt := c₀
            finishedAt := some (c₀ + 1)
            body := .toolInvocation invocations }
        let p₂ := pushStep st₀ invStep (c₀ + 2)
        match env.toolExec i invocations with
        | .raise msg => .thrown p₂.1 p₂.2 msg
        | .ok toolResults =>
          let st₃ := { p₂.1 with
            totalToolCalls := p₂.1.totalToolCalls + toolResults.length }
          let resMeta := getNextStepMeta st₃
          let resStep : AgentStep :=
            { id := resMeta.1
              index := resMeta.2
              startedAt := p₂.2
              finishedAt := some (p₂.2 + 1)
              body := .toolResult toolResults }
          let p₄ := pushStep st₃ resStep (p₂.2 + 2)
          let st₅ := appendToolResultMessages p₄.1 toolResults
          if (i : Int) = env.config.maxSteps - 1 then
            let r := terminateRun st₅ .maxStepsReached
              "Reached maxSteps without explicit completion." none p₄.2
            .stop r.1 r.2
          else
            .next st₅ p₄.2

/-- How the `for` loop was left: it ran to completion of the iteration protocol
(loop condition false or a `break`), or an exception escaped the body. -/
inductive LoopExit
  | finished
  | thrown (msg : String)
deriving DecidableEq, Repr

/-- The `for (let i = 0; i < maxSteps; i++)` loop.  `fuel` is the number of
remaining iterations; the top-level call supplies `fuel = maxSteps.toNat` and
`i = 0`, so that the loop condition `i < maxSteps` is `fuel > 0`. -/
def runLoopFrom (env : LoopEnv) (i fuel : Nat) (st : AgentState) (clock : Nat) :
    AgentState × Nat × LoopExit :=
  match fuel with
  | 0 => (st, clock, .finished)
  | fuel' + 1 =>
    match loopBody env i st clock with
    | .stop st' c' => (st', c', .finished)
    | .thrown st' c' msg => (st', c', .thrown msg)
    | .next st' c' => runLoopFrom env (i + 1) fuel' st' c'

/-- The outer catch of runAgentLoop: an exception escaping the loop body is
converted into a `model_error` termination with `state.error` set. -/
def handleLoopExit (st : AgentState) (clock : Nat) : LoopExit → AgentState × Nat
  | .finished => (st, clock)
  | .thrown msg => terminateRun st .modelError msg (some msg) clock

/-- RunAgentLoopParams (src/agent/loop.ts) plus the externally generated run
id, the starting clock value, the context-preparation capability (which may
throw), the observer notification (`some e` models an observer whose
`onRunFinished` throws — `notifyRunFinished` awaits each observer, so such an
exception propagates out of runAgentLoop), and the JSON-parse oracle. -/
structure RunAgentLoopParams where
  task : AgentTask
  config : AgentConfig
  model : String
  llm : LLMClient
  toolDefinitions : List ToolDefinition
  toolExec : Nat → List ToolInvocation → ExecOutcome
  prepare : AgentTask → AgentConfig → List ToolDefinition →
    Except String (LLMMessage × LLMMessage)
  notifyRunFinished : AgentRunResult → Option String
  parseOk : String → Bool
  runId : String
  startClock : Nat

/-- The LoopEnv destructured from the params. -/
def loopEnvOf (p : RunAgentLoopParams) : LoopEnv :=
  { config := p.config
    model := p.model
    llm := p.llm
    toolDefinitions := p.toolDefinitions
    toolExec := p.toolExec
    parseOk := p.parseOk }

/-- Run State just before the loop starts: createInitialState, then
`status := running` and `updatedAt := nowUtil()`. -/
def initialRunState (p : RunAgentLoopParams) (system user : LLMMessage) :
    AgentState × Nat :=
  let r := createInitialState p.runId p.startClock p.task p.config system user
    p.toolDefinitions
  ({ r.1 with status := .running, updatedAt := r.2 }, r.2 + 1)

/-- The loop output (final loop state, clock, exit kind) of a run. -/
def loopOutput (p : RunAgentLoopParams) (system user : LLMMessage) :
    AgentState × Nat × LoopExit :=
  runLoopFrom (loopEnvOf p) 0 p.config.maxSteps.toNat
    (initialRunState p system user).1 (initialRunState p system user).2

/-- The Run State after the `for` loop and the outer catch have finished. -/
def finalStateAfter (p : RunAgentLoopParams) (system user : LLMMessage) :
    AgentState :=
  (handleLoopExit (loopOutput p system user).1 (loopOutput p system user).2.1
    (loopOutput p system user).2.2).1

/-- runAgentLoop (src/agent/loop.ts).  `contextPreparator.prepare` runs before
the try block and `notifyRunFinished` after it, so an exception from either
propagates to the caller (modelled by the `Except.error` results); every other
path returns the result view of the final Run State. -/
def runAgentLoop (p : RunAgentLoopParams) : Except String AgentRunResult :=
  match p.prepare p.task p.config p.toolDefinitions with
  | .error e => .error e
  | .ok (system, user) =>
    let result := stateToRunResult (finalStateAfter p system user)
    match p.notifyRunFinished result with
    | some e => .error e
    | none => .ok result

/-- Whether a step is the termination step. -/
def AgentStep.isTermination (s : AgentStep) : Bool :=
  match s.body with
  | .termination _ _ => true
  | _ => false

/-- Whether a step is a tool_invocation step. -/
def AgentStep.isToolInvocation (s : AgentStep) : Bool :=
  match s.body with
  | .toolInvocation _ => true
  | _ => false

/-- Whether a step is a tool_result step. -/
def AgentStep.isToolResult (s : AgentStep) : Bool :=
  match s.body with
  | .toolResult _ => true
  | _ => false

/-- Whether a step is a model_call step. -/
def AgentStep.isModelCall (s : AgentStep) : Bool :=
  match s.body with
  | .modelCall _ _ _ => true
  | _ => false

/-- Length of the result list of a tool_result step (0 for other steps). -/
def AgentStep.resultsLen (s : AgentStep) : Nat :=
  match s.body with
  | .toolResult rs => rs.length
  | _ => 0

/-- Number of termination steps in a step list. -/
def terminationCount (steps : List AgentStep) : Nat :=
  (steps.filter AgentStep.isTermination).length

/-- Number of tool_invocation steps in a step list. -/
def toolInvocationCount (steps : List AgentStep) : Nat :=
  (steps.filter AgentStep.isToolInvocation).length

/-- Number of tool_result steps in a step list. -/
def toolResultCount (steps : List AgentStep) : Nat :=
  (steps.filter AgentStep.isToolResult).length

/-- Whether the last step of the list is the termination step. -/
def lastIsTermination (steps : List AgentStep) : Bool :=
  match steps.getLast? with
  | some s => s.isTermination
  | none => false

/-- Sum of the lengths of the result lists of all tool_result steps. -/
def sumToolResultLens (steps : List AgentStep) : Nat :=
  (steps.map AgentStep.resultsLen).sum

/-- Steps indexed `n, n+1, ...` in order, each id derived from its index. -/
def wellIndexedFrom : Nat → List AgentStep → Bool
  | _, [] => true
  | n, s :: rest =>
    (s.index = n && s.id = "step-" ++ toString n) && wellIndexedFrom (n + 1) rest

theorem terminationCount_append (xs ys : List AgentStep) :
    terminationCount (xs ++ ys) = terminationCount xs + terminationCount ys := by
  simp [terminationCount, List.filter_append]

theorem toolInvocationCount_append (xs ys : List AgentStep) :
    toolInvocationCount (xs ++ ys) =
      toolInvocationCount xs + toolInvocationCount ys := by
  simp [toolInvocationCount, List.filter_append]

theorem toolResultCount_append (xs ys : List AgentStep) :
    toolResultCount (xs ++ ys) = toolResultCount xs + toolResultCount ys := by
  simp [toolResultCount, List.filter_append]

theorem lastIsTermination_concat (xs : List AgentStep) (s : AgentStep) :
    lastIsTermination (xs ++ [s]) = s.isTermination := by
  simp [lastIsTermination, List.getLast?_concat]

theorem sumToolResultLens_append (xs ys : List AgentStep) :
    sumToolResultLens (xs ++ ys) = sumToolResultLens xs + sumToolResultLens ys := by
  simp [sumToolResultLens]

theorem wellIndexedFrom_concat (n : Nat) (xs : List AgentStep) (s : AgentStep)
    (h : wellIndexedFrom n xs = true) (hidx : s.index = n + xs.length)
    (hid : s.id = "step-" ++ toString (n + xs.length)) :
    wellIndexedFrom n (xs ++ [s]) = true := by
  induction xs generalizing n with
  | nil =>
    simp only [List.nil_append, wellIndexedFrom, List.length_nil, Nat.add_zero] at *
    simp [hidx, hid]
  | cons x xs ih =>
    simp only [wellIndexedFrom, Bool.and_eq_true, decide_eq_true_eq] at h
    obtain ⟨⟨h1, h2⟩, h3⟩ := h
    have harith : n + (x :: xs).length = (n + 1) + xs.length := by
      simp [List.length_cons]; omega
    simp only [List.cons_append, wellIndexedFrom, Bool.and_eq_true, decide_eq_true_eq]
    refine ⟨⟨h1, h2⟩, ?_⟩
    exact ih (n + 1) h3 (by rw [hidx, harith]) (by rw [hid, harith])

/-- The model-call step appended on the failure path, at the state and clock
executeModelCall was entered with. -/
def failedModelCallStep (st : AgentState) (clock : Nat) (e : String) : AgentStep :=
  { id := "step-" ++ toString st.steps.length
    index := st.steps.length
    startedAt := clock
    finishedAt := some (clock + 1)
    body := .modelCall st.messages none (some e) }

/-- The model-call step appended on the success path. -/
def okModelCallStep (st : AgentState) (clock : Nat) (m : LLMMessage) : AgentStep :=
  { id := "step-" ++ toString st.steps.length
    index := st.steps.length
    startedAt := clock
    finishedAt := some (clock + 1)
    body := .modelCall st.messages (some m) none }

/-- executeModelCall, characterized by the verdict of the underlying call: a
failure records the step with the error and leaves everything else untouched;
a success appends the assistant message to the history and records the step
with the output message.  Both paths consume three clock ticks. -/
theorem executeModelCall_verdict (st : AgentState) (llm : LLMClient) (i clock : Nat) :
    executeModelCall st llm i clock =
      match modelCallVerdict llm i st.messages with
      | .error e =>
        { state := { st with
              steps := st.steps ++ [failedModelCallStep st clock e]
              updatedAt := clock + 2 }
          clock := clock + 3
          assistantMessage := none
          error := some e }
      | .ok m =>
        { state := { st with
              messages := st.messages ++ [m]
              steps := st.steps ++ [okModelCallStep st clock m]
              updatedAt := clock + 2 }
          clock := clock + 3
          assistantMessage := some m
          error := none } := by
  cases h : llm.chatStream with
  | none =>
    cases hc : llm.chat i st.messages with
    | raise e =>
      simp [executeModelCall, modelCallVerdict, recordModelCallFailure,
        commitModelCallSuccess, pushStep, getNextStepMeta, failedModelCallStep,
        okModelCallStep, h, hc]
    | reply m =>
      by_cases hr : m.role = .assistant <;>
        simp [executeModelCall, modelCallVerdict, recordModelCallFailure,
          commitModelCallSuccess, pushStep, getNextStepMeta, failedModelCallStep,
          okModelCallStep, h, hc, hr]
  | some sf =>
    cases hs : sf i st.messages with
    | raise e =>
      simp [executeModelCall, modelCallVerdict, recordModelCallFailure,
        commitModelCallSuccess, pushStep, getNextStepMeta, failedModelCallStep,
        okModelCallStep, h, hs]
    | chunks cs =>
      cases hf : firstFinalMessage cs with
      | none =>
        simp [executeModelCall, modelCallVerdict, recordModelCallFailure,
          commitModelCallSuccess, pushStep, getNextStepMeta, failedModelCallStep,
          okModelCallStep, h, hs, hf]
      | some m =>
        by_cases hr : m.role = .assistant <;>
          simp [executeModelCall, modelCallVerdict, recordModelCallFailure,
            commitModelCallSuccess, pushStep, getNextStepMeta, failedModelCallStep,
            okModelCallStep, h, hs, hf, hr]

theorem wellIndexedFrom_append (n : Nat) (xs ys : List AgentStep) :
    wellIndexedFrom n (xs ++ ys) =
      (wellIndexedFrom n xs && wellIndexedFrom (n + xs.length) ys) := by
  induction xs generalizing n with
  | nil => simp [wellIndexedFrom]
  | cons x xs ih =>
    have harith : (n + 1) + xs.length = n + (xs.length + 1) := by omega
    simp [wellIndexedFrom, ih, harith, Bool.and_assoc]

theorem modelCallVerdict_ok_role {llm : LLMClient} {i : Nat}
    {msgs : List LLMMessage} {m : LLMMessage}
    (h : modelCallVerdict llm i msgs = .ok m) : m.role = .assistant := by
  unfold modelCallVerdict at h
  repeat' split at h
  all_goals first
    | (cases h; assumption)
    | simp at h

/-- What one `continue` of the loop body guarantees: one tool round ran (the
counter and the recorded tool_result lengths grow by the same amount), no
termination step was appended, the terminal-state fields are untouched, step
indexing stays well-formed, and the iteration was not the last allowed one. -/
theorem loopBody_next_spec (env : LoopEnv) (i : Nat) (st : AgentState)
    (clock : Nat) (st' : AgentState) (c' : Nat)
    (h : loopBody env i st clock = .next st' c') :
    (∃ k,
      st'.totalToolCalls = st.totalToolCalls + k ∧
      sumToolResultLens st'.steps = sumToolResultLens st.steps + k) ∧
    terminationCount st'.steps = terminationCount st.steps ∧
    st'.status = st.status ∧
    st'.terminationReason = st.terminationReason ∧
    st'.finalAnswer = st.finalAnswer ∧
    st'.error = st.error ∧
    (wellIndexedFrom 0 st.steps = true → wellIndexedFrom 0 st'.steps = true) ∧
    (i : Int) ≠ env.config.maxSteps - 1 := by
  unfold loopBody at h
  rw [executeModelCall_verdict] at h
  cases hv : modelCallVerdict env.llm i st.messages with
  | error e =>
    rw [hv] at h
    simp at h
  | ok m =>
    rw [hv] at h
    dsimp only at h
    split at h
    · simp at h
    · split at h
      · simp at h
      · split at h
        · simp at h
        · split at h
          · simp at h
          · cases h
            rename_i toolResults hexec hlast
            constructor
            · refine ⟨toolResults.length, ?_, ?_⟩
              · simp [appendToolResultMessages, pushStep]
              · simp [appendToolResultMessages, pushStep, sumToolResultLens_append,
                  sumToolResultLens, AgentStep.resultsLen, okModelCallStep]
            refine ⟨?_, ?_, ?_, ?_, ?_, ?_, ?_⟩
            · simp [appendToolResultMessages, pushStep, terminationCount_append,
                terminationCount, AgentStep.isTermination, okModelCallStep]
            · simp [appendToolResultMessages, pushStep]
            · simp [appendToolResultMessages, pushStep]
            · simp [appendToolResultMessages, pushStep]
            · simp [appendToolResultMessages, pushStep]
            · intro hwf
              simp [appendToolResultMessages, pushStep, getNextStepMeta,
                wellIndexedFrom_append, hwf, wellIndexedFrom, okModelCallStep,
                List.length_append]
            · assumption

/-- What one `break` of the loop body guarantees: exactly one termination step
was appended and it is last, the counter and recorded tool_result lengths grew
by the same amount, step indexing stays well-formed, and — when the body was
entered in a pre-terminal state — `finalAnswer` is set exactly in the
completed case, and then holds the assistant message without tool calls. -/
theorem loopBody_stop_spec (env : LoopEnv) (i : Nat) (st : AgentState)
    (clock : Nat) (st' : AgentState) (c' : Nat)
    (h : loopBody env i st clock = .stop st' c') :
    (∃ k,
      st'.totalToolCalls = st.totalToolCalls + k ∧
      sumToolResultLens st'.steps = sumToolResultLens st.steps + k) ∧
    terminationCount st'.steps = terminationCount st.steps + 1 ∧
    lastIsTermination st'.steps = true ∧
    (wellIndexedFrom 0 st.steps = true → wellIndexedFrom 0 st'.steps = true) ∧
    (st.finalAnswer = none ∧ st.status = .running ∧ st.terminationReason = none →
      (st'.finalAnswer.isSome ↔
        (st'.status = .completed ∧ st'.terminationReason = some .completed)) ∧
      (∀ m, st'.finalAnswer = some m →
        m.role = .assistant ∧ m.toolCalls.getD [] = [])) := by
  unfold loopBody at h
  rw [executeModelCall_verdict] at h
  cases hv : modelCallVerdict env.llm i st.messages with
  | error e =>
    rw [hv] at h
    dsimp only at h
    cases h
    refine ⟨⟨0, ?_, ?_⟩, ?_, ?_, ?_, ?_⟩
    · simp [terminateRun, pushStep]
    · simp [terminateRun, pushStep, sumToolResultLens_append, sumToolResultLens,
        AgentStep.resultsLen, failedModelCallStep]
    · simp [terminateRun, pushStep, terminationCount_append, terminationCount,
        AgentStep.isTermination, failedModelCallStep, getNextStepMeta]
    · simp [terminateRun, pushStep, lastIsTermination, AgentStep.isTermination,
        getNextStepMeta]
    · intro hwf
      simp [terminateRun, pushStep, getNextStepMeta, wellIndexedFrom_append, hwf,
        wellIndexedFrom, failedModelCallStep, List.length_append]
    · rintro ⟨hfa, hstatus, hreason⟩
      constructor
      · simp [terminateRun, pushStep, statusForTerminationReason, hfa]
      · intro m hm
        simp [terminateRun, pushStep, hfa] at hm
  | ok m =>
    rw [hv] at h
    dsimp only at h
    split at h
    · -- completed: no tool calls
      rename_i hempty
      cases h
      refine ⟨⟨0, ?_, ?_⟩, ?_, ?_, ?_, ?_⟩
      · simp [terminateRun, pushStep]
      · simp [terminateRun, pushStep, sumToolResultLens_append, sumToolResultLens,
          AgentStep.resultsLen, okModelCallStep]
      · simp [terminateRun, pushStep, terminationCount_append, terminationCount,
          AgentStep.isTermination, okModelCallStep, getNextStepMeta]
      · simp [terminateRun, pushStep, lastIsTermination, AgentStep.isTermination,
          getNextStepMeta]
      · intro hwf
        simp [terminateRun, pushStep, getNextStepMeta, wellIndexedFrom_append, hwf,
          wellIndexedFrom, okModelCallStep, List.length_append]
      · rintro ⟨hfa, hstatus, hreason⟩
        constructor
        · simp [terminateRun, pushStep, statusForTerminationReason]
        · intro m' hm'
          simp [terminateRun, pushStep] at hm'
          subst hm'
          exact ⟨modelCallVerdict_ok_role hv, by simpa using hempty⟩
    · split at h
      · -- budget exceeded
        cases h
        refine ⟨⟨0, ?_, ?_⟩, ?_, ?_, ?_, ?_⟩
        · simp [terminateRun, pushStep]
        · simp [terminateRun, pushStep, sumToolResultLens_append, sumToolResultLens,
            AgentStep.resultsLen, okModelCallStep]
        · simp [terminateRun, pushStep, terminationCount_append, terminationCount,
            AgentStep.isTermination, okModelCallStep, getNextStepMeta]
        · simp [terminateRun, pushStep, lastIsTermination, AgentStep.isTermination,
            getNextStepMeta]
        · intro hwf
          simp [terminateRun, pushStep, getNextStepMeta, wellIndexedFrom_append, hwf,
            wellIndexedFrom, okModelCallStep, List.length_append]
        · rintro ⟨hfa, hstatus, hreason⟩
          constructor
          · simp [terminateRun, pushStep, statusForTerminationReason, hfa]
          · intro m' hm'
            simp [terminateRun, pushStep, hfa] at hm'
      · split at h
        · simp at h
        · -- tool round ran, last allowed iteration
          split at h
          · cases h
            rename_i toolResults hexec hlast
            refine ⟨⟨toolResults.length, ?_, ?_⟩, ?_, ?_, ?_, ?_⟩
            · simp [terminateRun, pushStep, appendToolResultMessages]
            · simp [terminateRun, pushStep, appendToolResultMessages,
                sumToolResultLens_append, sumToolResultLens, AgentStep.resultsLen,
                okModelCallStep, getNextStepMeta]
            · simp [terminateRun, pushStep, appendToolResultMessages,
                terminationCount_append, terminationCount, AgentStep.isTermination,
                okModelCallStep, getNextStepMeta]
            · simp [terminateRun, pushStep, appendToolResultMessages,
                lastIsTermination, AgentStep.isTermination, getNextStepMeta]
            · intro hwf
              simp [terminateRun, pushStep, appendToolResultMessages, getNextStepMeta,
                wellIndexedFrom_append, hwf, wellIndexedFrom, okModelCallStep,
                List.length_append]
            · rintro ⟨hfa, hstatus, hreason⟩
              constructor
              · simp [terminateRun, pushStep, appendToolResultMessages,
                  statusForTerminationReason, hfa]
              · intro m' hm'
                simp [terminateRun, pushStep, appendToolResultMessages, hfa] at hm'
          · simp at h

/-- What a loop-body exception (only `toolExecutor.execute` can raise one)
guarantees: the tool counter is untouched (it is incremented only after the
executor returns), no tool_result and no termination step was appended, the
terminal-state fields are untouched, and step indexing stays well-formed. -/
theorem loopBody_thrown_spec (env : LoopEnv) (i : Nat) (st : AgentState)
    (clock : Nat) (st' : AgentState) (c' : Nat) (msg : String)
    (h : loopBody env i st clock = .thrown st' c' msg) :
    st'.totalToolCalls = st.totalToolCalls ∧
    sumToolResultLens st'.steps = sumToolResultLens st.steps ∧
    terminationCount st'.steps = terminationCount st.steps ∧
    st'.status = st.status ∧
    st'.terminationReason = st.terminationReason ∧
    st'.finalAnswer = st.finalAnswer ∧
    st'.error = st.error ∧
    (wellIndexedFrom 0 st.steps = true → wellIndexedFrom 0 st'.steps = true) := by
  unfold loopBody at h
  rw [executeModelCall_verdict] at h
  cases hv : modelCallVerdict env.llm i st.messages with
  | error e =>
    rw [hv] at h
    simp at h
  | ok m =>
    rw [hv] at h
    dsimp only at h
    split at h
    · simp at h
    · split at h
      · simp at h
      · split at h
        · cases h
          refine ⟨?_, ?_, ?_, ?_, ?_, ?_, ?_, ?_⟩
          · simp [pushStep]
          · simp [pushStep, sumToolResultLens_append, sumToolResultLens,
              AgentStep.resultsLen, okModelCallStep, getNextStepMeta]
          · simp [pushStep, terminationCount_append, terminationCount,
              AgentStep.isTermination, okModelCallStep, getNextStepMeta]
          · simp [pushStep]
          · simp [pushStep]
          · simp [pushStep]
          · simp [pushStep]
          · intro hwf
            simp [pushStep, getNextStepMeta, wellIndexedFrom_append, hwf,
              wellIndexedFrom, okModelCallStep, List.length_append]
        · split at h
          · simp at h
          · simp at h

/-- The outer catch converts a loop-body exception into a `model_error`
termination: status `failed`, reason `model_error`, `state.error` set to the
exception message, the termination step appended last, and everything else
(counter, history, finalAnswer) untouched. -/
theorem handleLoopExit_thrown_spec (st : AgentState) (clock : Nat) (msg : String) :
    (handleLoopExit st clock (.thrown msg)).1.status = .failed ∧
    (handleLoopExit st clock (.thrown msg)).1.terminationReason = some .modelError ∧
    (handleLoopExit st clock (.thrown msg)).1.error = some msg ∧
    (handleLoopExit st clock (.thrown msg)).1.totalToolCalls = st.totalToolCalls ∧
    (handleLoopExit st clock (.thrown msg)).1.finalAnswer = st.finalAnswer ∧
    (handleLoopExit st clock (.thrown msg)).1.messages = st.messages ∧
    terminationCount (handleLoopExit st clock (.thrown msg)).1.steps =
      terminationCount st.steps + 1 ∧
    lastIsTermination (handleLoopExit st clock (.thrown msg)).1.steps = true ∧
    sumToolResultLens (handleLoopExit st clock (.thrown msg)).1.steps =
      sumToolResultLens st.steps ∧
    (wellIndexedFrom 0 st.steps = true →
      wellIndexedFrom 0 (handleLoopExit st clock (.thrown msg)).1.steps = true) := by
  refine ⟨?_, ?_, ?_, ?_, ?_, ?_, ?_, ?_, ?_, ?_⟩
  · simp [handleLoopExit, terminateRun, pushStep, statusForTerminationReason]
  · simp [handleLoopExit, terminateRun, pushStep]
  · simp [handleLoopExit, terminateRun, pushStep]
  · simp [handleLoopExit, terminateRun, pushStep]
  · simp [handleLoopExit, terminateRun, pushStep]
  · simp [handleLoopExit, terminateRun, pushStep]
  · simp [handleLoopExit, terminateRun, pushStep, terminationCount_append,
      terminationCount, AgentStep.isTermination, getNextStepMeta]
  · simp [handleLoopExit, terminateRun, pushStep, lastIsTermination,
      AgentStep.isTermination, getNextStepMeta]
  · simp [handleLoopExit, terminateRun, pushStep, sumToolResultLens_append,
      sumToolResultLens, AgentStep.resultsLen, getNextStepMeta]
  · intro hwf
    simp [handleLoopExit, terminateRun, pushStep, getNextStepMeta,
      wellIndexedFrom_append, hwf, wellIndexedFrom]

theorem runLoopFrom_zero (env : LoopEnv) (i : Nat) (st : AgentState) (clock : Nat) :
    runLoopFrom env i 0 st clock = (st, clock, .finished) := rfl

theorem runLoopFrom_succ_stop {env : LoopEnv} {i : Nat} {st : AgentState}
    {clock : Nat} {st' : AgentState} {c' fuel : Nat}
    (hb : loopBody env i st clock = .stop st' c') :
    runLoopFrom env i (fuel + 1) st clock = (st', c', .finished) := by
  simp only [runLoopFrom, hb]

theorem runLoopFrom_succ_thrown {env : LoopEnv} {i : Nat} {st : AgentState}
    {clock : Nat} {st' : AgentState} {c' fuel : Nat} {msg : String}
    (hb : loopBody env i st clock = .thrown st' c' msg) :
    runLoopFrom env i (fuel + 1) st clock = (st', c', .thrown msg) := by
  simp only [runLoopFrom, hb]

theorem runLoopFrom_succ_next {env : LoopEnv} {i : Nat} {st : AgentState}
    {clock : Nat} {st' : AgentState} {c' fuel : Nat}
    (hb : loopBody env i st clock = .next st' c') :
    runLoopFrom env i (fuel + 1) st clock = runLoopFrom env (i + 1) fuel st' c' := by
  simp only [runLoopFrom, hb]

/-- Across the whole loop, `totalToolCalls` and the recorded `tool_result`
lengths grow in lockstep (hence the counter is also non-decreasing). -/
theorem runLoopFrom_totals (env : LoopEnv) :
    ∀ (fuel i : Nat) (st : AgentState) (clock : Nat),
    ∃ k, (runLoopFrom env i fuel st clock).1.totalToolCalls = st.totalToolCalls + k ∧
      sumToolResultLens (runLoopFrom env i fuel st clock).1.steps =
        sumToolResultLens st.steps + k := by
  intro fuel
  induction fuel with
  | zero =>
    intro i st clock
    exact ⟨0, by simp [runLoopFrom_zero], by simp [runLoopFrom_zero]⟩
  | succ fuel ih =>
    intro i st clock
    cases hb : loopBody env i st clock with
    | stop st' c' =>
      obtain ⟨⟨k, hk1, hk2⟩, _⟩ := loopBody_stop_spec env i st clock st' c' hb
      exact ⟨k, by rw [runLoopFrom_succ_stop hb]; exact hk1,
        by rw [runLoopFrom_succ_stop hb]; exact hk2⟩
    | thrown st' c' msg =>
      obtain ⟨h1, h2, _⟩ := loopBody_thrown_spec env i st clock st' c' msg hb
      exact ⟨0, by rw [runLoopFrom_succ_thrown hb]; simp [h1],
        by rw [runLoopFrom_succ_thrown hb]; simp [h2]⟩
    | next st' c' =>
      obtain ⟨⟨k, hk1, hk2⟩, _⟩ := loopBody_next_spec env i st clock st' c' hb
      obtain ⟨k', hk1', hk2'⟩ := ih (i + 1) st' c'
      refine ⟨k + k', ?_, ?_⟩
      · rw [runLoopFrom_succ_next hb, hk1', hk1]; omega
      · rw [runLoopFrom_succ_next hb, hk2', hk2]; omega

/-- The loop preserves well-formed step indexing. -/
theorem runLoopFrom_wellIndexed (env : LoopEnv) :
    ∀ (fuel i : Nat) (st : AgentState) (clock : Nat),
    wellIndexedFrom 0 st.steps = true →
    wellIndexedFrom 0 (runLoopFrom env i fuel st clock).1.steps = true := by
  intro fuel
  induction fuel with
  | zero =>
    intro i st clock hwf
    simpa [runLoopFrom_zero] using hwf
  | succ fuel ih =>
    intro i st clock hwf
    cases hb : loopBody env i st clock with
    | stop st' c' =>
      obtain ⟨_, _, _, hw, _⟩ := loopBody_stop_spec env i st clock st' c' hb
      rw [runLoopFrom_succ_stop hb]
      exact hw hwf
    | thrown st' c' msg =>
      obtain ⟨_, _, _, _, _, _, _, hw⟩ :=
        loopBody_thrown_spec env i st clock st' c' msg hb
      rw [runLoopFrom_succ_thrown hb]
      exact hw hwf
    | next st' c' =>
      obtain ⟨_, _, _, _, _, _, hw, _⟩ := loopBody_next_spec env i st clock st' c' hb
      rw [runLoopFrom_succ_next hb]
      exact ih (i + 1) st' c' (hw hwf)

/-- A state that has not yet terminated: no final answer, status `running`,
no termination reason.  This is how the loop starts and how `continue`
leaves the state. -/
def PreTerminal (st : AgentState) : Prop :=
  st.finalAnswer = none ∧ st.status = .running ∧ st.terminationReason = none

/-- Final-answer consistency: `finalAnswer` is set iff the run completed, and
then it is an assistant message without requested actions. -/
def FinalAnswerConsistent (st : AgentState) : Prop :=
  (st.finalAnswer.isSome ↔
    (st.status = .completed ∧ st.terminationReason = some .completed)) ∧
  (∀ m, st.finalAnswer = some m → m.role = .assistant ∧ m.toolCalls.getD [] = [])

theorem preTerminal_finalAnswerConsistent {st : AgentState} (h : PreTerminal st) :
    FinalAnswerConsistent st := by
  obtain ⟨h1, h2, _⟩ := h
  constructor
  · simp [h1, h2]
  · intro m hm
    rw [h1] at hm
    cases hm

/-- C3 core: starting from a state with no termination step, at iteration `i`
with `fuel` remaining iterations satisfying the loop-bound bookkeeping
`i + fuel = maxSteps` with at least one iteration left, the loop either
finishes with exactly one termination step, last in the list, or an exception
escapes with still no termination step recorded. -/
theorem runLoopFrom_termination (env : LoopEnv) :
    ∀ (fuel i : Nat) (st : AgentState) (clock : Nat),
    (i : Int) + fuel = env.config.maxSteps → 0 < fuel →
    terminationCount st.steps = 0 →
    ((runLoopFrom env i fuel st clock).2.2 = .finished →
      terminationCount (runLoopFrom env i fuel st clock).1.steps = 1 ∧
      lastIsTermination (runLoopFrom env i fuel st clock).1.steps = true) ∧
    (∀ msg, (runLoopFrom env i fuel st clock).2.2 = .thrown msg →
      terminationCount (runLoopFrom env i fuel st clock).1.steps = 0) := by
  intro fuel
  induction fuel with
  | zero =>
    intro i st clock _ hpos _
    exact absurd hpos (by omega)
  | succ fuel ih =>
    intro i st clock hbound _ hcount
    cases hb : loopBody env i st clock with
    | stop st' c' =>
      obtain ⟨_, hc, hl, _⟩ := loopBody_stop_spec env i st clock st' c' hb
      rw [runLoopFrom_succ_stop hb]
      exact ⟨fun _ => ⟨by rw [hc, hcount], hl⟩, fun msg hmsg => by cases hmsg⟩
    | thrown st' c' msg =>
      obtain ⟨_, _, hc, _⟩ := loopBody_thrown_spec env i st clock st' c' msg hb
      rw [runLoopFrom_succ_thrown hb]
      constructor
      · intro hfin
        exact absurd hfin (by simp)
      · intro msg' hmsg'
        show terminationCount st'.steps = 0
        rw [hc, hcount]
    | next st' c' =>
      obtain ⟨_, hc, _, _, _, _, _, hlast⟩ := loopBody_next_spec env i st clock st' c' hb
      rw [runLoopFrom_succ_next hb]
      have hfuel : 0 < fuel := by
        by_contra h0
        have hz : fuel = 0 := by omega
        subst hz
        apply hlast
        push_cast at hbound
        omega
      exact ih (i + 1) st' c' (by push_cast at hbound ⊢; omega) hfuel
        (by rw [hc, hcount])

/-- C5 core: starting from a pre-terminal state, the loop ends (by any exit)
in a state satisfying final-answer consistency; when an exception escapes the
body the state is still pre-terminal (the outer catch then decides). -/
theorem runLoopFrom_finalAnswer (env : LoopEnv) :
    ∀ (fuel i : Nat) (st : AgentState) (clock : Nat),
    PreTerminal st →
    ((runLoopFrom env i fuel st clock).2.2 = .finished →
      FinalAnswerConsistent (runLoopFrom env i fuel st clock).1) ∧
    (∀ msg, (runLoopFrom env i fuel st clock).2.2 = .thrown msg →
      PreTerminal (runLoopFrom env i fuel st clock).1) := by
  intro fuel
  induction fuel with
  | zero =>
    intro i st clock hpre
    rw [runLoopFrom_zero]
    exact ⟨fun _ => preTerminal_finalAnswerConsistent hpre, fun msg hmsg => by cases hmsg⟩
  | succ fuel ih =>
    intro i st clock hpre
    cases hb : loopBody env i st clock with
    | stop st' c' =>
      obtain ⟨_, _, _, _, hclass⟩ := loopBody_stop_spec env i st clock st' c' hb
      rw [runLoopFrom_succ_stop hb]
      exact ⟨fun _ => hclass hpre, fun msg hmsg => by cases hmsg⟩
    | thrown st' c' msg =>
      obtain ⟨_, _, _, hs, hr, hf, _⟩ := loopBody_thrown_spec env i st clock st' c' msg hb
      rw [runLoopFrom_succ_thrown hb]
      refine ⟨fun hfin => absurd hfin (by simp), fun _ _ => ?_⟩
      obtain ⟨p1, p2, p3⟩ := hpre
      show PreTerminal st'
      unfold PreTerminal
      exact ⟨by rw [hf, p1], by rw [hs, p2], by rw [hr, p3]⟩
    | next st' c' =>
      obtain ⟨_, _, hs, hr, hf, _⟩ := loopBody_next_spec env i st clock st' c' hb
      rw [runLoopFrom_succ_next hb]
      obtain ⟨p1, p2, p3⟩ := hpre
      have hpre' : PreTerminal st' := by
        unfold PreTerminal
        exact ⟨by rw [hf, p1], by rw [hs, p2], by rw [hr, p3]⟩
      exact ih (i + 1) st' c' hpre'

/-- Whenever runAgentLoop returns normally, the result is the view of the
final Run State computed from the (successful) prepared context. -/
theorem runAgentLoop_ok_result (p : RunAgentLoopParams) (system user : LLMMessage)
    (r : AgentRunResult)
    (hp : p.prepare p.task p.config p.toolDefinitions = .ok (system, user))
    (hr : runAgentLoop p = .ok r) :
    r = stateToRunResult (finalStateAfter p system user) := by
  unfold runAgentLoop at hr
  rw [hp] at hr
  dsimp only at hr
  split at hr
  · cases hr
  · cases hr
    rfl

/-- The state entering the loop: fresh history, empty steps, zeroed counter,
status `running`. -/
theorem initialRunState_spec (p : RunAgentLoopParams) (system user : LLMMessage) :
    (initialRunState p system user).1.steps = [] ∧
    (initialRunState p system user).1.status = .running ∧
    (initialRunState p system user).1.terminationReason = none ∧
    (initialRunState p system user).1.finalAnswer = none ∧
    (initialRunState p system user).1.error = none ∧
    (initialRunState p system user).1.totalToolCalls = 0 ∧
    (initialRunState p system user).1.messages = [system, user] := by
  refine ⟨?_, ?_, ?_, ?_, ?_, ?_, ?_⟩ <;> rfl

/-- C3 at the final-state level: with at least one allowed iteration, the
final Run State holds exactly one termination step, and it is last. -/
theorem finalStateAfter_termination (p : RunAgentLoopParams)
    (system user : LLMMessage) (hms : 1 ≤ p.config.maxSteps) :
    terminationCount (finalStateAfter p system user).steps = 1 ∧
    lastIsTermination (finalStateAfter p system user).steps = true := by
  obtain ⟨hsteps, _⟩ := initialRunState_spec p system user
  have hcount0 : terminationCount (initialRunState p system user).1.steps = 0 := by
    rw [hsteps]; rfl
  have hterm := runLoopFrom_termination (loopEnvOf p) p.config.maxSteps.toNat 0
    (initialRunState p system user).1 (initialRunState p system user).2
    (by simp only [loopEnvOf]; omega)
    (by omega) hcount0
  unfold finalStateAfter loopOutput
  rcases hE : runLoopFrom (loopEnvOf p) 0 p.config.maxSteps.toNat
      (initialRunState p system user).1 (initialRunState p system user).2 with
    ⟨stL, cL, ex⟩
  rw [hE] at hterm
  cases ex with
  | finished =>
    obtain ⟨h1, h2⟩ := hterm.1 rfl
    exact ⟨h1, h2⟩
  | thrown msg =>
    have h0 := hterm.2 msg rfl
    obtain ⟨_, _, _, _, _, _, hc, hl, _⟩ := handleLoopExit_thrown_spec stL cL msg
    exact ⟨by rw [hc, h0], hl⟩

/-- C4 at the final-state level: step ids and indices are well-formed. -/
theorem finalStateAfter_wellIndexed (p : RunAgentLoopParams)
    (system user : LLMMessage) :
    wellIndexedFrom 0 (finalStateAfter p system user).steps = true := by
  obtain ⟨hsteps, _⟩ := initialRunState_spec p system user
  have hwf0 : wellIndexedFrom 0 (initialRunState p system user).1.steps = true := by
    rw [hsteps]; rfl
  have hwf := runLoopFrom_wellIndexed (loopEnvOf p) p.config.maxSteps.toNat 0
    (initialRunState p system user).1 (initialRunState p system user).2 hwf0
  unfold finalStateAfter loopOutput
  rcases hE : runLoopFrom (loopEnvOf p) 0 p.config.maxSteps.toNat
      (initialRunState p system user).1 (initialRunState p system user).2 with
    ⟨stL, cL, ex⟩
  rw [hE] at hwf
  cases ex with
  | finished => exact hwf
  | thrown msg =>
    obtain ⟨_, _, _, _, _, _, _, _, _, hw⟩ := handleLoopExit_thrown_spec stL cL msg
    exact hw hwf

/-- C5 at the final-state level: final-answer consistency holds. -/
theorem finalStateAfter_finalAnswer (p : RunAgentLoopParams)
    (system user : LLMMessage) :
    FinalAnswerConsistent (finalStateAfter p system user) := by
  obtain ⟨hsteps, hst, hre, hfa, _⟩ := initialRunState_spec p system user
  have hpre : PreTerminal (initialRunState p system user).1 := ⟨hfa, hst, hre⟩
  have hfac := runLoopFrom_finalAnswer (loopEnvOf p) p.config.maxSteps.toNat 0
    (initialRunState p system user).1 (initialRunState p system user).2 hpre
  unfold finalStateAfter loopOutput
  rcases hE : runLoopFrom (loopEnvOf p) 0 p.config.maxSteps.toNat
      (initialRunState p system user).1 (initialRunState p system user).2 with
    ⟨stL, cL, ex⟩
  rw [hE] at hfac
  cases ex with
  | finished => exact hfac.1 rfl
  | thrown msg =>
    obtain ⟨q1, q2, q3⟩ := hfac.2 msg rfl
    obtain ⟨hs, hr, _, _, hf, _⟩ := handleLoopExit_thrown_spec stL cL msg
    constructor
    · rw [hf, q1, hs, hr]
      simp
    · intro m hm
      rw [hf, q1] at hm
      cases hm

/-- C6 at the final-state level: the counter equals the recorded sum. -/
theorem finalStateAfter_totals (p : RunAgentLoopParams)
    (system user : LLMMessage) :
    (finalStateAfter p system user).totalToolCalls =
      sumToolResultLens (finalStateAfter p system user).steps := by
  obtain ⟨hsteps, _, _, _, _, htot, _⟩ := initialRunState_spec p system user
  obtain ⟨k, hk1, hk2⟩ := runLoopFrom_totals (loopEnvOf p) p.config.maxSteps.toNat 0
    (initialRunState p system user).1 (initialRunState p system user).2
  unfold finalStateAfter loopOutput
  rcases hE : runLoopFrom (loopEnvOf p) 0 p.config.maxSteps.toNat
      (initialRunState p system user).1 (initialRunState p system user).2 with
    ⟨stL, cL, ex⟩
  rw [hE] at hk1 hk2
  have hsum0 : sumToolResultLens (initialRunState p system user).1.steps = 0 := by
    rw [hsteps]; rfl
  cases ex with
  | finished =>
    show stL.totalToolCalls = sumToolResultLens stL.steps
    rw [hk1, hk2, htot, hsum0]
  | thrown msg =>
    obtain ⟨_, _, _, ht, _, _, _, _, hsum, _⟩ := handleLoopExit_thrown_spec stL cL msg
    rw [ht, hsum, hk1, hk2, htot, hsum0]

/-- Well-indexed step lists have exactly the indices `n, n+1, ...` in order,
and every id is derived from the step's own index. -/
theorem wellIndexedFrom_map_index (xs : List AgentStep) :
    ∀ n, wellIndexedFrom n xs = true →
    xs.map AgentStep.index = List.range' n xs.length ∧
    ∀ s ∈ xs, s.id = "step-" ++ toString s.index := by
  induction xs with
  | nil =>
    intro n _
    simp
  | cons x xs ih =>
    intro n h
    simp only [wellIndexedFrom, Bool.and_eq_true, decide_eq_true_eq] at h
    obtain ⟨⟨h1, h2⟩, h3⟩ := h
    obtain ⟨ih1, ih2⟩ := ih (n + 1) h3
    constructor
    · simp only [List.map_cons, List.length_cons, List.range'_succ, h1, ih1]
    · intro s hs
      cases hs with
      | head => rw [h2, h1]
      | tail _ hmem => exact ih2 s hmem

/-! Concrete runs used to exercise the theorems.  The scripted client answers
the n-th model call with the n-th scripted outcome; the echo executor returns
one ok-result per invocation. -/

def msgSys : LLMMessage := { role := .system, content := "You are a demo agent." }

def msgUsr : LLMMessage := { role := .user, content := "Say hello." }

def tcAdd : LLMToolCall := { id := "call-a", name := "add_numbers", arguments := "a2b3" }

def tcClock : LLMToolCall := { id := "call-b", name := "get_time", arguments := "" }

def asstTwoCalls : LLMMessage :=
  { role := .assistant, content := "", toolCalls := some [tcAdd, tcClock] }

def asstOneCall : LLMMessage :=
  { role := .assistant, content := "", toolCalls := some [tcAdd] }

def asstDone : LLMMessage :=
  { role := .assistant, content := "hello", toolCalls := none }

def scriptedClient (ms : List ChatOutcome) : LLMClient :=
  { chat := fun i _ => ms.getD i (.raise "no scripted reply")
    chatStream := none }

def echoExecutor : Nat → List ToolInvocation → ExecOutcome :=
  fun _ invs => .ok (invs.map fun inv =>
    { callId := inv.callId, toolName := inv.toolName, ok := true, data := some "5" })

def baseParams (llm : LLMClient)
    (toolExec : Nat → List ToolInvocation → ExecOutcome)
    (config : AgentConfig) : RunAgentLoopParams :=
  { task := { id := "task-1", description := "demo" }
    config := config
    model := "gpt-4.1-mini"
    llm := llm
    toolDefinitions := [{ name := "add_numbers" }]
    toolExec := toolExec
    prepare := fun _ _ _ => .ok (msgSys, msgUsr)
    notifyRunFinished := fun _ => none
    parseOk := fun _ => true
    runId := "run-1"
    startClock := 0 }

/-- Scenario B of the spec: one tool round, then a final answer. -/
def pScenarioB : RunAgentLoopParams :=
  baseParams (scriptedClient [.reply asstOneCall, .reply asstDone]) echoExecutor
    { maxSteps := 8, maxToolCalls := some 6 }

/-- C3: For every finished run (config with maxSteps ≥ 1), exactly one step of
type termination exists in the run's step list, and it is the last element of
that list. -/
theorem C3_single_termination (p : RunAgentLoopParams)
    (system user : LLMMessage) (r : AgentRunResult)
    (hp : p.prepare p.task p.config p.toolDefinitions = .ok (system, user))
    (hms : 1 ≤ p.config.maxSteps)
    (hr : runAgentLoop p = .ok r) :
    terminationCount r.steps = 1 ∧ lastIsTermination r.steps = true := by
  rw [runAgentLoop_ok_result p system user r hp hr]
  exact finalStateAfter_termination p system user hms

/-- Witness for C3: the Scenario B run satisfies the hypotheses and the
conclusion. -/
theorem C3_single_termination_witness :
    terminationCount
      (stateToRunResult (finalStateAfter pScenarioB msgSys msgUsr)).steps = 1 ∧
    lastIsTermination
      (stateToRunResult (finalStateAfter pScenarioB msgSys msgUsr)).steps = true :=
  C3_single_termination pScenarioB msgSys msgUsr
    (stateToRunResult (finalStateAfter pScenarioB msgSys msgUsr))
    rfl (by decide) rfl

/-- C4: For every finished run, the step indices are exactly
0..steps.length-1 in order, and each step's id is "step-" ++ its index. -/
theorem C4_step_indexing (p : RunAgentLoopParams)
    (system user : LLMMessage) (r : AgentRunResult)
    (hp : p.prepare p.task p.config p.toolDefinitions = .ok (system, user))
    (hr : runAgentLoop p = .ok r) :
    r.steps.map AgentStep.index = List.range r.steps.length ∧
    ∀ s ∈ r.steps, s.id = "step-" ++ toString s.index := by
  rw [runAgentLoop_ok_result p system user r hp hr]
  obtain ⟨h1, h2⟩ := wellIndexedFrom_map_index
    (finalStateAfter p system user).steps 0 (finalStateAfter_wellIndexed p system user)
  exact ⟨by rw [List.range_eq_range']; exact h1, h2⟩

/-- Witness for C4: the Scenario B run satisfies the hypotheses and the
conclusion. -/
theorem C4_step_indexing_witness :
    (stateToRunResult (finalStateAfter pScenarioB msgSys msgUsr)).steps.map
        AgentStep.index =
      List.range
        (stateToRunResult (finalStateAfter pScenarioB msgSys msgUsr)).steps.length ∧
    ∀ s ∈ (stateToRunResult (finalStateAfter pScenarioB msgSys msgUsr)).steps,
      s.id = "step-" ++ toString s.index :=
  C4_step_indexing pScenarioB msgSys msgUsr
    (stateToRunResult (finalStateAfter pScenarioB msgSys msgUsr)) rfl rfl

/-- C5: finalAnswer is defined iff status = completed and terminationReason =
completed; in the completed case it is the assistant message that carried no
requested actions. -/
theorem C5_final_answer_consistency (p : RunAgentLoopParams)
    (system user : LLMMessage) (r : AgentRunResult)
    (hp : p.prepare p.task p.config p.toolDefinitions = .ok (system, user))
    (hr : runAgentLoop p = .ok r) :
    (r.finalAnswer.isSome ↔
      (r.status = .completed ∧ r.terminationReason = some .completed)) ∧
    (∀ m, r.finalAnswer = some m →
      m.role = .assistant ∧ m.toolCalls.getD [] = []) := by
  rw [runAgentLoop_ok_result p system user r hp hr]
  exact finalStateAfter_finalAnswer p system user

/-- Witness for C5: the Scenario B run (which completes with a final answer)
satisfies the hypotheses and the conclusion. -/
theorem C5_final_answer_consistency_witness :
    ((stateToRunResult (finalStateAfter pScenarioB msgSys msgUsr)).finalAnswer.isSome ↔
      ((stateToRunResult (finalStateAfter pScenarioB msgSys msgUsr)).status = .completed ∧
        (stateToRunResult (finalStateAfter pScenarioB msgSys msgUsr)).terminationReason =
          some .completed)) ∧
    (∀ m,
      (stateToRunResult (finalStateAfter pScenarioB msgSys msgUsr)).finalAnswer = some m →
      m.role = .assistant ∧ m.toolCalls.getD [] = []) :=
  C5_final_answer_consistency pScenarioB msgSys msgUsr
    (stateToRunResult (finalStateAfter pScenarioB msgSys msgUsr)) rfl rfl

/-- C6: totalToolCalls equals the sum of the result-list lengths of all
tool_result steps at the end of every run, and it is non-decreasing across
the loop. -/
theorem C6_counter_consistency (p : RunAgentLoopParams)
    (system user : LLMMessage) (r : AgentRunResult)
    (hp : p.prepare p.task p.config p.toolDefinitions = .ok (system, user))
    (hr : runAgentLoop p = .ok r) :
    r.totalToolCalls = sumToolResultLens r.steps ∧
    (∀ (env : LoopEnv) (fuel i : Nat) (st : AgentState) (clock : Nat),
      st.totalToolCalls ≤ (runLoopFrom env i fuel st clock).1.totalToolCalls) := by
  constructor
  · rw [runAgentLoop_ok_result p system user r hp hr]
    exact finalStateAfter_totals p system user
  · intro env fuel i st clock
    obtain ⟨k, hk, _⟩ := runLoopFrom_totals env fuel i st clock
    omega

/-- Witness for C6: the Scenario B run satisfies the hypotheses and the
conclusion (including the monotonicity part at its own loop). -/
theorem C6_counter_consistency_witness :
    (stateToRunResult (finalStateAfter pScenarioB msgSys msgUsr)).totalToolCalls =
      sumToolResultLens
        (stateToRunResult (finalStateAfter pScenarioB msgSys msgUsr)).steps ∧
    (initialRunState pScenarioB msgSys msgUsr).1.totalToolCalls ≤
      (runLoopFrom (loopEnvOf pScenarioB) 0 8
        (initialRunState pScenarioB msgSys msgUsr).1
        (initialRunState pScenarioB msgSys msgUsr).2).1.totalToolCalls :=
  ⟨(C6_counter_consistency pScenarioB msgSys msgUsr
      (stateToRunResult (finalStateAfter pScenarioB msgSys msgUsr)) rfl rfl).1,
   (C6_counter_consistency pScenarioB msgSys msgUsr
      (stateToRunResult (finalStateAfter pScenarioB msgSys msgUsr)) rfl rfl).2
      (loopEnvOf pScenarioB) 8 0 (initialRunState pScenarioB msgSys msgUsr).1
      (initialRunState pScenarioB msgSys msgUsr).2⟩

/-- C8: the blocking and incremental model-calling modes are observably
equivalent: when the stream's final notification carries the message the
blocking call would return, executeModelCall produces the identical outcome
(same step, same history append, same result), partial chunks never touching
Run State; when that message is an assistant message, no error is recorded
and it is appended to the history. -/
theorem C8_stream_blocking_equivalence (st : AgentState) (i clock : Nat)
    (llmB llmS : LLMClient) (sf : Nat → List LLMMessage → StreamOutcome)
    (cs : List StreamChunk) (m : LLMMessage)
    (hB : llmB.chatStream = none)
    (hBc : llmB.chat i st.messages = .reply m)
    (hS : llmS.chatStream = some sf)
    (hSc : sf i st.messages = .chunks cs)
    (hfinal : firstFinalMessage cs = some m) :
    executeModelCall st llmB i clock = executeModelCall st llmS i clock ∧
    (m.role = .assistant →
      (executeModelCall st llmB i clock).error = none ∧
      (executeModelCall st llmB i clock).state.messages = st.messages ++ [m]) := by
  have hvB : modelCallVerdict llmB i st.messages =
      (if m.role = .assistant then .ok m else .error (roleErrorText m.role)) := by
    unfold modelCallVerdict
    rw [hB]
    dsimp only
    rw [hBc]
  have hvS : modelCallVerdict llmS i st.messages =
      (if m.role = .assistant then .ok m else .error (roleErrorText m.role)) := by
    unfold modelCallVerdict
    rw [hS]
    dsimp only
    rw [hSc]
    dsimp only
    rw [hfinal]
  constructor
  · rw [executeModelCall_verdict, executeModelCall_verdict, hvB, hvS]
  · intro hrole
    rw [executeModelCall_verdict, hvB]
    simp [hrole]

/-- A streaming client whose only scripted stream yields one partial chunk and
then the final assistant answer. -/
def streamingClient : LLMClient :=
  { chat := fun _ _ => .reply asstDone
    chatStream := some (fun i _ =>
      if i = 0 then
        .chunks [{ contentDelta := some "hel" },
          { done := true, message := some asstDone }]
      else .raise "no scripted stream") }

/-- Witness for C8: a concrete blocking client and a concrete streaming client
delivering the same assistant message produce identical outcomes. -/
theorem C8_stream_blocking_equivalence_witness :
    executeModelCall (initialRunState pScenarioB msgSys msgUsr).1
        (scriptedClient [.reply asstDone]) 0 2 =
      executeModelCall (initialRunState pScenarioB msgSys msgUsr).1
        streamingClient 0 2 ∧
    (asstDone.role = .assistant →
      (executeModelCall (initialRunState pScenarioB msgSys msgUsr).1
          (scriptedClient [.reply asstDone]) 0 2).error = none ∧
      (executeModelCall (initialRunState pScenarioB msgSys msgUsr).1
          (scriptedClient [.reply asstDone]) 0 2).state.messages =
        (initialRunState pScenarioB msgSys msgUsr).1.messages ++ [asstDone]) :=
  C8_stream_blocking_equivalence (initialRunState pScenarioB msgSys msgUsr).1 0 2
    (scriptedClient [.reply asstDone]) streamingClient
    (fun i _ =>
      if i = 0 then
        .chunks [{ contentDelta := some "hel" },
          { done := true, message := some asstDone }]
      else .raise "no scripted stream")
    [{ contentDelta := some "hel" }, { done := true, message := some asstDone }]
    asstDone rfl rfl rfl rfl rfl

/-- C9: a failed model call never mutates the message history nor any other
Run State field except appending the model_call step carrying the error; an
assistant message is appended only on the success path; and the subsequent
termination decided by the loop also leaves the history unchanged. -/
theorem C9_failure_frame (st : AgentState) (llm : LLMClient) (i clock : Nat) :
    (∀ e, modelCallVerdict llm i st.messages = .error e →
      (executeModelCall st llm i clock).state.messages = st.messages ∧
      (executeModelCall st llm i clock).state.steps =
        st.steps ++ [failedModelCallStep st clock e] ∧
      (executeModelCall st llm i clock).state.status = st.status ∧
      (executeModelCall st llm i clock).state.totalToolCalls = st.totalToolCalls ∧
      (executeModelCall st llm i clock).state.finalAnswer = st.finalAnswer ∧
      (executeModelCall st llm i clock).state.terminationReason =
        st.terminationReason ∧
      (executeModelCall st llm i clock).state.error = st.error) ∧
    (∀ m, modelCallVerdict llm i st.messages = .ok m →
      (executeModelCall st llm i clock).state.messages = st.messages ++ [m]) ∧
    (∀ (env : LoopEnv) (e : String), env.llm = llm →
      modelCallVerdict llm i st.messages = .error e →
      ∀ st' c', loopBody env i st clock = .stop st' c' →
        st'.messages = st.messages) := by
  refine ⟨?_, ?_, ?_⟩
  · intro e hv
    rw [executeModelCall_verdict, hv]
    exact ⟨rfl, rfl, rfl, rfl, rfl, rfl, rfl⟩
  · intro m hv
    rw [executeModelCall_verdict, hv]
  · intro env e henv hv st' c' hb
    unfold loopBody at hb
    rw [executeModelCall_verdict, henv, hv] at hb
    dsimp only at hb
    cases hb
    simp [terminateRun, pushStep]

/-- A client whose stream ends without a final message. -/
def truncatedStreamClient : LLMClient :=
  { chat := fun _ _ => .reply asstDone
    chatStream := some (fun _ _ => .chunks [{ contentDelta := some "hel" }]) }

/-- Witness for C9: a stream that ends without a final message leaves the
history of a concrete state unchanged, and the success path of a concrete
blocking client appends exactly the assistant message. -/
theorem C9_failure_frame_witness :
    (executeModelCall (initialRunState pScenarioB msgSys msgUsr).1
        truncatedStreamClient 0 2).state.messages =
      (initialRunState pScenarioB msgSys msgUsr).1.messages ∧
    (executeModelCall (initialRunState pScenarioB msgSys msgUsr).1
        (scriptedClient [.reply asstDone]) 0 2).state.messages =
      (initialRunState pScenarioB msgSys msgUsr).1.messages ++ [asstDone] :=
  ⟨((C9_failure_frame (initialRunState pScenarioB msgSys msgUsr).1
      truncatedStreamClient 0 2).1
      "Stream ended without a final message" rfl).1,
   (C9_failure_frame (initialRunState pScenarioB msgSys msgUsr).1
      (scriptedClient [.reply asstDone]) 0 2).2.1 asstDone rfl⟩

/-- C7: in every model-call failure case (capability throws, non-assistant
role, or stream without a final notification) with recorded error `e`, the
model_call step is recorded with error = e before the failure is reported,
the run then terminates failed / model_error, and the result view's error
field equals e. -/
theorem C7_model_failure_terminates (env : LoopEnv) (i fuel : Nat)
    (st : AgentState) (clock : Nat) (e : String)
    (hv : modelCallVerdict env.llm i st.messages = .error e) :
    (runLoopFrom env i (fuel + 1) st clock).2.2 = .finished ∧
    (runLoopFrom env i (fuel + 1) st clock).1.steps =
      st.steps ++ [failedModelCallStep st clock e,
        { id := "step-" ++ toString (st.steps.length + 1)
          index := st.steps.length + 1
          startedAt := clock + 3
          finishedAt := some (clock + 4)
          body := .termination .modelError
            "Model call failed or returned non-assistant message." }] ∧
    (runLoopFrom env i (fuel + 1) st clock).1.status = .failed ∧
    (runLoopFrom env i (fuel + 1) st clock).1.terminationReason =
      some .modelError ∧
    (runLoopFrom env i (fuel + 1) st clock).1.error = some e ∧
    (runLoopFrom env i (fuel + 1) st clock).1.messages = st.messages ∧
    (stateToRunResult (runLoopFrom env i (fuel + 1) st clock).1).error = some e := by
  cases hb : loopBody env i st clock with
  | next st' c' =>
    unfold loopBody at hb
    rw [executeModelCall_verdict, hv] at hb
    simp at hb
  | thrown st' c' msg =>
    unfold loopBody at hb
    rw [executeModelCall_verdict, hv] at hb
    simp at hb
  | stop st' c' =>
    rw [runLoopFrom_succ_stop hb]
    unfold loopBody at hb
    rw [executeModelCall_verdict, hv] at hb
    dsimp only at hb
    cases hb
    refine ⟨rfl, ?_, ?_, ?_, ?_, ?_, ?_⟩
    · simp [terminateRun, pushStep, getNextStepMeta, failedModelCallStep,
        List.length_append]
    · simp [terminateRun, pushStep, statusForTerminationReason]
    · simp [terminateRun, pushStep]
    · simp [terminateRun, pushStep]
    · simp [terminateRun, pushStep]
    · simp [terminateRun, pushStep, stateToRunResult]

/-- Witness for C7: a concrete client that throws at the first call makes the
run fail with the thrown message recorded on the step, the state and the
result. -/
theorem C7_model_failure_terminates_witness :
    (runLoopFrom (loopEnvOf (baseParams (scriptedClient []) echoExecutor
        { maxSteps := 8 })) 0 (7 + 1)
      (initialRunState (baseParams (scriptedClient []) echoExecutor
        { maxSteps := 8 }) msgSys msgUsr).1 2).1.status = .failed ∧
    (runLoopFrom (loopEnvOf (baseParams (scriptedClient []) echoExecutor
        { maxSteps := 8 })) 0 (7 + 1)
      (initialRunState (baseParams (scriptedClient []) echoExecutor
        { maxSteps := 8 }) msgSys msgUsr).1 2).1.error = some "no scripted reply" :=
  ⟨(C7_model_failure_terminates
      (loopEnvOf (baseParams (scriptedClient []) echoExecutor { maxSteps := 8 }))
      0 7
      (initialRunState (baseParams (scriptedClient []) echoExecutor
        { maxSteps := 8 }) msgSys msgUsr).1 2 "no scripted reply" rfl).2.2.1,
   (C7_model_failure_terminates
      (loopEnvOf (baseParams (scriptedClient []) echoExecutor { maxSteps := 8 }))
      0 7
      (initialRunState (baseParams (scriptedClient []) echoExecutor
        { maxSteps := 8 }) msgSys msgUsr).1 2 "no scripted reply" rfl).2.2.2.2.1⟩

/-- C10: with maxSteps ≤ 0 the `for` loop never runs: the run returns
normally with status still `running`, an empty step list (so in particular no
termination step), no termination reason, no error, totalToolCalls = 0, no
final answer — and the result does not depend on the model or tool
capabilities at all (no model call and no tool execution is attempted). -/
theorem C10_nonpositive_maxSteps (p : RunAgentLoopParams)
    (system user : LLMMessage) (r : AgentRunResult)
    (hms : p.config.maxSteps ≤ 0)
    (hp : p.prepare p.task p.config p.toolDefinitions = .ok (system, user))
    (hr : runAgentLoop p = .ok r) :
    r.status = .running ∧ r.steps = [] ∧ r.terminationReason = none ∧
    r.error = none ∧ r.totalToolCalls = 0 ∧ r.finalAnswer = none ∧
    (∀ (llm' : LLMClient) (toolExec' : Nat → List ToolInvocation → ExecOutcome),
      runAgentLoop { p with llm := llm', toolExec := toolExec' } =
        runAgentLoop p) := by
  have htn : p.config.maxSteps.toNat = 0 := by omega
  have hfs : ∀ (llm' : LLMClient)
      (te' : Nat → List ToolInvocation → ExecOutcome),
      finalStateAfter { p with llm := llm', toolExec := te' } system user =
        (initialRunState p system user).1 := by
    intro llm' te'
    unfold finalStateAfter loopOutput
    rw [show ({ p with llm := llm', toolExec := te' } :
        RunAgentLoopParams).config.maxSteps.toNat = 0 from htn, runLoopFrom_zero]
    rfl
  have hfp : finalStateAfter p system user = (initialRunState p system user).1 := by
    unfold finalStateAfter loopOutput
    rw [htn, runLoopFrom_zero]
    rfl
  rw [runAgentLoop_ok_result p system user r hp hr, hfp]
  obtain ⟨h1, h2, h3, h4, h5, h6, _⟩ := initialRunState_spec p system user
  refine ⟨h2, h1, h3, h5, h6, h4, ?_⟩
  intro llm' te'
  have hp' : ({ p with llm := llm', toolExec := te' } :
      RunAgentLoopParams).prepare
      ({ p with llm := llm', toolExec := te' } : RunAgentLoopParams).task
      ({ p with llm := llm', toolExec := te' } : RunAgentLoopParams).config
      ({ p with llm := llm', toolExec := te' } :
        RunAgentLoopParams).toolDefinitions = .ok (system, user) := hp
  unfold runAgentLoop
  rw [hp']
  dsimp only
  rw [hfs llm' te', hfp]

/-- Witness for C10: a concrete run with maxSteps = 0 satisfies the
hypotheses and the conclusion. -/
theorem C10_nonpositive_maxSteps_witness :
    (stateToRunResult (finalStateAfter (baseParams (scriptedClient [.reply asstDone])
        echoExecutor { maxSteps := 0 }) msgSys msgUsr)).status = .running ∧
    (stateToRunResult (finalStateAfter (baseParams (scriptedClient [.reply asstDone])
        echoExecutor { maxSteps := 0 }) msgSys msgUsr)).steps = [] ∧
    (stateToRunResult (finalStateAfter (baseParams (scriptedClient [.reply asstDone])
        echoExecutor { maxSteps := 0 }) msgSys msgUsr)).terminationReason = none ∧
    (stateToRunResult (finalStateAfter (baseParams (scriptedClient [.reply asstDone])
        echoExecutor { maxSteps := 0 }) msgSys msgUsr)).error = none ∧
    (stateToRunResult (finalStateAfter (baseParams (scriptedClient [.reply asstDone])
        echoExecutor { maxSteps := 0 }) msgSys msgUsr)).totalToolCalls = 0 ∧
    (stateToRunResult (finalStateAfter (baseParams (scriptedClient [.reply asstDone])
        echoExecutor { maxSteps := 0 }) msgSys msgUsr)).finalAnswer = none ∧
    (∀ (llm' : LLMClient) (toolExec' : Nat → List ToolInvocation → ExecOutcome),
      runAgentLoop { baseParams (scriptedClient [.reply asstDone]) echoExecutor
          { maxSteps := 0 } with llm := llm', toolExec := toolExec' } =
        runAgentLoop (baseParams (scriptedClient [.reply asstDone]) echoExecutor
          { maxSteps := 0 })) :=
  C10_nonpositive_maxSteps
    (baseParams (scriptedClient [.reply asstDone]) echoExecutor { maxSteps := 0 })
    msgSys msgUsr
    (stateToRunResult (finalStateAfter (baseParams (scriptedClient [.reply asstDone])
      echoExecutor { maxSteps := 0 }) msgSys msgUsr))
    (by decide) rfl rfl

/-- A run whose context-preparation capability throws. -/
def pPrepThrows : RunAgentLoopParams :=
  { baseParams (scriptedClient [.reply asstDone]) echoExecutor { maxSteps := 8 }
    with prepare := fun _ _ _ => .error "context preparation failed" }

/-- C2 counterexample: runAgentLoop does NOT catch every exception — the
context-preparation capability runs before the try block, so its exception
propagates to the caller instead of yielding a failed Run Result. -/
theorem C2_counterexample :
    runAgentLoop pPrepThrows = .error "context preparation failed" := rfl

/-- C2 amended: exceptions raised inside the loop body are caught by the
outer safety net, which appends a termination step and forces
failed / model_error — and when context preparation succeeds and no observer
throws, the caller always receives a Run Result.  (Exceptions thrown by the
context preparator before the loop, or by an observer during the final
notification, still propagate.) -/
theorem C2_loop_exceptions_contained (p : RunAgentLoopParams)
    (system user : LLMMessage)
    (hp : p.prepare p.task p.config p.toolDefinitions = .ok (system, user))
    (hn : ∀ res, p.notifyRunFinished res = none) :
    (∃ r, runAgentLoop p = .ok r) ∧
    (∀ msg, (loopOutput p system user).2.2 = .thrown msg →
      (finalStateAfter p system user).status = .failed ∧
      (finalStateAfter p system user).terminationReason = some .modelError ∧
      (finalStateAfter p system user).error = some msg ∧
      lastIsTermination (finalStateAfter p system user).steps = true) := by
  constructor
  · refine ⟨stateToRunResult (finalStateAfter p system user), ?_⟩
    unfold runAgentLoop
    rw [hp]
    dsimp only
    rw [hn]
  · intro msg hmsg
    unfold finalStateAfter
    rw [hmsg]
    obtain ⟨h1, h2, h3, _, _, _, _, hl, _⟩ :=
      handleLoopExit_thrown_spec (loopOutput p system user).1
        (loopOutput p system user).2.1 msg
    exact ⟨h1, h2, h3, hl⟩

/-- A run whose tool executor throws at the first dispatch. -/
def pToolThrows : RunAgentLoopParams :=
  baseParams (scriptedClient [.reply asstOneCall])
    (fun _ _ => .raise "tool exec exploded") { maxSteps := 8 }

/-- Witness for C2 (amended): with a throwing tool executor the caller still
receives a Run Result, and the loop-body exception is converted into a
failed / model_error termination. -/
theorem C2_loop_exceptions_contained_witness :
    (∃ r, runAgentLoop pToolThrows = .ok r) ∧
    ((finalStateAfter pToolThrows msgSys msgUsr).status = .failed ∧
      (finalStateAfter pToolThrows msgSys msgUsr).terminationReason =
        some .modelError ∧
      (finalStateAfter pToolThrows msgSys msgUsr).error =
        some "tool exec exploded" ∧
      lastIsTermination (finalStateAfter pToolThrows msgSys msgUsr).steps = true) :=
  ⟨(C2_loop_exceptions_contained pToolThrows msgSys msgUsr rfl
      (fun _ => rfl)).1,
   (C2_loop_exceptions_contained pToolThrows msgSys msgUsr rfl
      (fun _ => rfl)).2 "tool exec exploded" rfl⟩

/-- Scenario D of the spec: maxToolCalls = 1 and the assistant requests two
actions in its first turn. -/
def pScenarioD : RunAgentLoopParams :=
  baseParams (scriptedClient [.reply asstTwoCalls]) echoExecutor
    { maxSteps := 5, maxToolCalls := some 1 }

/-- C1 counterexample: in the Scenario D run the claimed tool_invocation step
is NOT recorded — the budget check fires before the invocation step is
pushed, so the step list contains no tool_invocation step at all (while the
run does terminate max_steps_reached with totalToolCalls = 0 and only a
model_call step followed by the termination step). -/
theorem C1_counterexample :
    (runAgentLoop pScenarioD).toOption.map (fun r =>
      (toolInvocationCount r.steps, toolResultCount r.steps,
        r.terminationReason, r.totalToolCalls, r.steps.length)) =
      some (0, 0, some .maxStepsReached, 0, 2) := rfl

/-- C1 amended: when the assistant turn's requested actions would push the
projected tool-call total over maxToolCalls, NO tool_invocation step is
recorded and dispatch is skipped: the run terminates max_steps_reached with
status terminated, totalToolCalls unchanged at 0, no tool_result step, and
exactly the model_call step plus the termination step on record (the budget
check in runAgentLoop runs before the invocation step is pushed). -/
theorem C1_budget_exceeded_skips_invocation (p : RunAgentLoopParams)
    (system user : LLMMessage) (m : LLMMessage) (b : Int)
    (_hp : p.prepare p.task p.config p.toolDefinitions = .ok (system, user))
    (hms : 1 ≤ p.config.maxSteps)
    (hv : modelCallVerdict p.llm 0 [system, user] = .ok m)
    (hcap : p.config.maxToolCalls = some b)
    (hnonempty : m.toolCalls.getD [] ≠ [])
    (hover : ((m.toolCalls.getD []).length : Int) > b) :
    toolInvocationCount (finalStateAfter p system user).steps = 0 ∧
    toolResultCount (finalStateAfter p system user).steps = 0 ∧
    (finalStateAfter p system user).terminationReason = some .maxStepsReached ∧
    (finalStateAfter p system user).status = .terminated ∧
    (finalStateAfter p system user).totalToolCalls = 0 ∧
    (finalStateAfter p system user).steps.length = 2 := by
  obtain ⟨f, hf⟩ : ∃ f, p.config.maxSteps.toNat = f + 1 :=
    ⟨p.config.maxSteps.toNat - 1, by omega⟩
  obtain ⟨hsteps, _, _, _, _, htot, hmsgs⟩ := initialRunState_spec p system user
  have hv' : modelCallVerdict (loopEnvOf p).llm 0
      (initialRunState p system user).1.messages = .ok m := by
    rw [hmsgs]
    exact hv
  have hempty : (m.toolCalls.getD []).isEmpty = false := by
    cases hE : m.toolCalls.getD [] with
    | nil => exact absurd hE hnonempty
    | cons a as => rfl
  have hbud : budgetExceeded (loopEnvOf p).config
      ((initialRunState p system user).1.totalToolCalls +
        (m.toolCalls.getD []).length) = true := by
    show budgetExceeded p.config _ = true
    rw [htot]
    simp only [budgetExceeded, hcap, Nat.zero_add, decide_eq_true_eq]
    omega
  cases hb : loopBody (loopEnvOf p) 0 (initialRunState p system user).1
      (initialRunState p system user).2 with
  | next st' c' =>
    unfold loopBody at hb
    rw [executeModelCall_verdict, hv'] at hb
    dsimp only at hb
    rw [if_neg (by simp [hempty])] at hb
    rw [if_pos (by exact hbud)] at hb
    simp at hb
  | thrown st' c' msg =>
    unfold loopBody at hb
    rw [executeModelCall_verdict, hv'] at hb
    dsimp only at hb
    rw [if_neg (by simp [hempty])] at hb
    rw [if_pos (by exact hbud)] at hb
    simp at hb
  | stop st' c' =>
    unfold finalStateAfter loopOutput
    rw [hf, runLoopFrom_succ_stop hb]
    unfold loopBody at hb
    rw [executeModelCall_verdict, hv'] at hb
    dsimp only at hb
    rw [if_neg (by simp [hempty])] at hb
    rw [if_pos (by exact hbud)] at hb
    cases hb
    refine ⟨?_, ?_, ?_, ?_, ?_, ?_⟩
    · rw [hsteps]
      simp [handleLoopExit, terminateRun, pushStep, getNextStepMeta,
        toolInvocationCount, AgentStep.isToolInvocation, okModelCallStep,
        List.forall_mem_cons]
    · rw [hsteps]
      simp [handleLoopExit, terminateRun, pushStep, getNextStepMeta,
        toolResultCount, AgentStep.isToolResult, okModelCallStep,
        List.forall_mem_cons]
    · simp [handleLoopExit, terminateRun, pushStep]
    · simp [handleLoopExit, terminateRun, pushStep, statusForTerminationReason]
    · simp [handleLoopExit, terminateRun, pushStep, htot]
    · rw [hsteps]
      simp [handleLoopExit, terminateRun, pushStep, getNextStepMeta,
        List.length_append]

/-- Witness for C1 (amended): the Scenario D run satisfies the hypotheses and
the conclusion. -/
theorem C1_budget_exceeded_skips_invocation_witness :
    toolInvocationCount (finalStateAfter pScenarioD msgSys msgUsr).steps = 0 ∧
    toolResultCount (finalStateAfter pScenarioD msgSys msgUsr).steps = 0 ∧
    (finalStateAfter pScenarioD msgSys msgUsr).terminationReason =
      some .maxStepsReached ∧
    (finalStateAfter pScenarioD msgSys msgUsr).status = .terminated ∧
    (finalStateAfter pScenarioD msgSys msgUsr).totalToolCalls = 0 ∧
    (finalStateAfter pScenarioD msgSys msgUsr).steps.length = 2 :=
  C1_budget_exceeded_skips_invocation pScenarioD msgSys msgUsr asstTwoCalls 1
    rfl (by decide) rfl rfl (by decide) (by decide)
